import Mathlib

/-!
# Verification of the DeepXDE collocation dataset and loss assembler

Shallow embedding of `deepxde/data/pde.py`: the `PDE` and `TimePDE` data
classes that sample collocation points, cache the stacked train/test arrays,
track per-boundary-condition segment sizes (`num_bcs`), and assemble the
train/test loss lists.

Point arrays are modelled as lists of rows, a row being a list of integers
(the claims under study are structural: lengths, ordering, slicing; the
numeric coordinate type is irrelevant).  The random draw
`np.random.randint(3, size=n)` is modelled by an oracle `idx : Nat → Fin 3`
giving the category drawn for each row.  Fallible numpy/python operations
(vstack with `None`, indexing with an undefined name, concatenating a list
with `None`) are modelled with `Except String`.
-/

/-- A point row: spatial coordinates possibly followed by tag columns. -/
abbrev Row := List Int

/-- One-hot encoding of category `k` out of 3, as the 3 appended columns
`one_hot = np.zeros((n, 3)); one_hot[np.arange(n), idx] = 1`. -/
def oneHot3 (k : Fin 3) : List Int :=
  [if k = 0 then 1 else 0, if k = 1 then 1 else 0, if k = 2 then 1 else 0]

/-- Embeds `idx = np.random.randint(3, size=n)` followed by
`X = np.concatenate([X, one_hot], axis=1)`: append to row `i` the one-hot
encoding of the category drawn for it. -/
def addTags (idx : Nat → Fin 3) (X : List Row) : List Row :=
  (X.enum).map fun p => p.2 ++ oneHot3 (idx p.1)

/-- Embeds `np.cumsum`: entry `i` of the result is the sum of the first
`i + 1` entries of the input. -/
def cumsum : List Nat → List Nat
  | [] => []
  | x :: xs => x :: (cumsum xs).map (x + ·)

/-- Geometry collaborator: the sampling primitives the dataset calls
(`GeometryXTime` additionally provides the two initial-point samplers). -/
structure Geom where
  dim : Nat
  uniform_points : Nat → Bool → List Row
  random_points : Nat → String → List Row
  uniform_boundary_points : Nat → List Row
  random_boundary_points : Nat → String → List Row
  uniform_initial_points : Nat → List Row
  random_initial_points : Nat → String → List Row

/-- Boundary-condition collaborator: collocation-point selector and
pointwise error over a `[begin, end)` slice of the stacked array. -/
structure BC where
  collocation_points : List Row → List Row
  error : List Row → List Row → List Row → Nat → Nat → List Int

/-- Embeds `PDE.train_points`: sample the interior (`num_domain` points,
uniform when `train_distribution == "uniform"`, else Sobol quasi-random),
stack boundary samples in front, stack anchors in front of that, and append
the random 3-way one-hot tag columns to every row. -/
def PDE.train_points (g : Geom) (num_domain num_boundary : Nat)
    (train_distribution : String) (anchors : Option (List Row))
    (idx : Nat → Fin 3) : List Row :=
  let X : List Row := []
  let X := if 0 < num_domain then
      (if train_distribution = "uniform" then g.uniform_points num_domain false
       else g.random_points num_domain "sobol")
    else X
  let X := if 0 < num_boundary then
      (if train_distribution = "uniform" then g.uniform_boundary_points num_boundary
       else g.random_boundary_points num_boundary "sobol") ++ X
    else X
  let X := match anchors with
    | some a => a ++ X
    | none => X
  addTags idx X

/-- Embeds `TimePDE.train_points`: like `PDE.train_points` with an
initial-time sample stacked in front of the boundary sample. -/
def TimePDE.train_points (g : Geom) (num_domain num_boundary num_initial : Nat)
    (train_distribution : String) (anchors : Option (List Row))
    (idx : Nat → Fin 3) : List Row :=
  let X : List Row := []
  let X := if 0 < num_domain then
      (if train_distribution = "uniform" then g.uniform_points num_domain false
       else g.random_points num_domain "sobol")
    else X
  let X := if 0 < num_boundary then
      (if train_distribution = "uniform" then g.uniform_boundary_points num_boundary
       else g.random_boundary_points num_boundary "sobol") ++ X
    else X
  let X := if 0 < num_initial then
      (if train_distribution = "uniform" then g.uniform_initial_points num_initial
       else g.random_initial_points num_initial "sobol") ++ X
    else X
  let X := match anchors with
    | some a => a ++ X
    | none => X
  addTags idx X

/-- Embeds `PDE.bc_points`.  The Python function computes the per-condition
collocation points `x_bcs`, records `self.num_bcs = list(map(len, x_bcs))`,
stacks `x_bcs` and appends the one-hot tag columns into a local `X` — and
then falls off the end without a `return` statement, so the call evaluates
to `None`.  The result is the pair (new `num_bcs` ledger, returned value). -/
def PDE.bc_points (bcs : List BC) (train_x : List Row) (idx : Nat → Fin 3) :
    List Nat × Option (List Row) :=
  let x_bcs := bcs.map fun bc => bc.collocation_points train_x
  let num_bcs := x_bcs.map List.length
  let X := addTags idx x_bcs.flatten
  (num_bcs, none)

/-- Embeds `PDE.test_points`: `return self.geom.uniform_points(self.num_test,
True)` — no one-hot tag columns are appended on this path. -/
def PDE.test_points (g : Geom) (num_test : Nat) : List Row :=
  g.uniform_points num_test true

/-- Embeds `TimePDE.test_points`.  The Python body samples
`X = self.geom.uniform_points(self.num_test)` and then executes
`one_hot[np.arange(num_examples), idx] = 1` where `num_examples` is not
defined in that scope, so every call raises `NameError` before returning. -/
def TimePDE.test_points (g : Geom) (num_test : Nat) (idx : Nat → Fin 3) :
    Except String (List Row) :=
  let X := g.uniform_points num_test true
  let one_hot : List Row := List.replicate num_test [0, 0, 0]
  Except.error "NameError: name num examples is not defined"

/-- The mutable state of a `PDE` (resp. `TimePDE`) instance: sampling
configuration plus the cached arrays and the segment-size ledger.
`num_initial` is only consulted by the `TimePDE` sampler. -/
structure PDEState where
  bcs : List BC
  num_domain : Nat
  num_boundary : Nat
  num_initial : Nat
  train_distribution : String
  anchors : Option (List Row)
  soln : Option (List Row → List Row)
  num_test : Option Nat
  num_bcs : Option (List Nat)
  train_x : Option (List Row)
  train_y : Option (List Row)
  test_x : Option (List Row)
  test_y : Option (List Row)

/-- Embeds `PDE.train_next_batch` together with its
`@run_if_all_none("train_x", "train_y")` decorator.

Modelled from the spec for the decorator (its definition lives in
`deepxde/utils.py`, which is outside the provided source): the wrapped body
runs only when every named cached attribute is `None`; otherwise the call
returns the cached attribute values unchanged and the body is skipped.

The body sets `train_x` to the freshly sampled candidate array, then
`self.train_x = np.vstack((self.bc_points(), self.train_x))`.  Since
`bc_points` returns `None` (missing `return`), `np.vstack` receives `None`
as its first block — a 1-column object cell that cannot be stacked with the
tagged candidate rows — and raises `ValueError`.  The unreachable
well-formed continuation is kept for reference. -/
def PDE.train_next_batch (g : Geom) (idxT idxB : Nat → Fin 3) (s : PDEState) :
    Except String (PDEState × (Option (List Row) × Option (List Row))) :=
  if s.train_x.isNone && s.train_y.isNone then
    let cand := PDE.train_points g s.num_domain s.num_boundary
      s.train_distribution s.anchors idxT
    let p := PDE.bc_points s.bcs cand idxB
    match p.2 with
    | none => Except.error "ValueError: vstack input dimensions mismatch"
    | some bx =>
      let tx := bx ++ cand
      let ty := s.soln.map fun f => f tx
      Except.ok ({ s with num_bcs := some p.1, train_x := some tx, train_y := ty },
        (some tx, ty))
  else
    Except.ok (s, (s.train_x, s.train_y))

/-- Embeds `PDE.test` together with its `@run_if_all_none("test_x",
"test_y")` decorator (decorator modelled from the spec, as above).

With `num_test` unset the test data is the suffix of the cached train data
after the boundary-condition prefix: `self.test_x = self.train_x[sum(self.num_bcs):]`
(raising `TypeError` when `train_x` or `num_bcs` is still `None`), and
`test_y` likewise when `train_y` is present.  With `num_test` set it calls
`test_points` and evaluates the solution if configured. -/
def PDE.test (g : Geom) (s : PDEState) :
    Except String (PDEState × (Option (List Row) × Option (List Row))) :=
  if s.test_x.isNone && s.test_y.isNone then
    match s.num_test with
    | none =>
      match s.train_x, s.num_bcs with
      | some tx, some nb =>
        let newx := tx.drop nb.sum
        let newy := match s.train_y with
          | some ty => some (ty.drop nb.sum)
          | none => none
        Except.ok ({ s with test_x := some newx, test_y := newy },
          (some newx, newy))
      | _, _ => Except.error "TypeError: NoneType in test slicing"
    | some n =>
      let newx := PDE.test_points g n
      let newy := s.soln.map fun f => f newx
      Except.ok ({ s with test_x := some newx, test_y := newy },
        (some newx, newy))
  else
    Except.ok (s, (s.test_x, s.test_y))

/-- Embeds `PDE.add_anchors`: merge the new anchors in front of any existing
ones, rebuild `train_x` as the new anchors stacked ahead of the previous
train array with its boundary-condition prefix dropped
(`np.vstack((anchors, self.train_x[sum(self.num_bcs):]))`), then stack the
result of `bc_points` in front.  As in `train_next_batch`, that last
`np.vstack((self.bc_points(), self.train_x))` raises `ValueError` because
`bc_points` returns `None`. -/
def PDE.add_anchors (idxB : Nat → Fin 3) (anchors : List Row) (s : PDEState) :
    Except String PDEState :=
  let merged := match s.anchors with
    | none => anchors
    | some a => anchors ++ a
  match s.train_x, s.num_bcs with
  | some tx, some nb =>
    let tx1 := anchors ++ tx.drop nb.sum
    let p := PDE.bc_points s.bcs tx1 idxB
    match p.2 with
    | none => Except.error "ValueError: vstack input dimensions mismatch"
    | some bx =>
      let tx2 := bx ++ tx1
      Except.ok { s with
        anchors := some merged
        num_bcs := some p.1
        train_x := some tx2
        train_y := s.soln.map (fun f => f tx2) }
  | _, _ => Except.error "TypeError: NoneType in add anchors"

/-- Embeds the `losses_train` branch of `PDE.losses`, given the residual
components `f_train` (the value of `self.pde(...)` normalized to a list)
and a present segment-size ledger `num_bcs`:

* `bcs_start = np.cumsum([0] + self.num_bcs)`;
* each residual component is cut down to `fi[bcs_start[-1]:]` and compared
  by `loss` against `tf.zeros(tf.shape(error))`;
* then, for each boundary condition in order, its `error` over the slice
  `[bcs_start[i], bcs_start[i+1])` is compared against zeros likewise. -/
def losses_train (loss : List Int → List Int → Int) (f_train : List (List Int))
    (bcs : List BC) (num_bcs : List Nat)
    (train_x inputs outputs : List Row) : List Int :=
  let bcs_start := cumsum (0 :: num_bcs)
  let error_f := f_train.map fun fi => fi.drop (bcs_start.getLastD 0)
  let ls := error_f.map fun e => loss (List.replicate e.length 0) e
  ls ++ (bcs.enum).map fun q =>
    let beg := bcs_start.getD q.1 0
    let en := bcs_start.getD (q.1 + 1) 0
    let e := q.2.error train_x inputs outputs beg en
    loss (List.replicate e.length 0) e

/-- Embeds the `losses_train` branch including its failure modes: with
`self.num_bcs` still `None`, `np.cumsum([0] + self.num_bcs)` raises
`TypeError`; with a ledger shorter than the boundary-condition list,
`bcs_start[i + 1]` raises `IndexError` inside the loop. -/
def losses_trainE (loss : List Int → List Int → Int) (f_train : List (List Int))
    (bcs : List BC) (num_bcs : Option (List Nat))
    (train_x inputs outputs : List Row) : Except String (List Int) :=
  match num_bcs with
  | none => Except.error "TypeError: cannot concatenate list and None"
  | some nb =>
    if bcs.length ≤ nb.length then
      Except.ok (losses_train loss f_train bcs nb train_x inputs outputs)
    else
      Except.error "IndexError: bcs start index out of bounds"

/-- Embeds the `losses_test` branch of `PDE.losses`: every residual
component is compared whole against a zero target of its own shape, and one
literal `tf.constant(0)` is appended per boundary condition. -/
def losses_test (loss : List Int → List Int → Int) (f_test : List (List Int))
    (bcs : List BC) : List Int :=
  (f_test.map fun fi => loss (List.replicate fi.length 0) fi)
    ++ bcs.map fun _ => 0

/-- Embeds the dispatch of `PDE.losses`: `tf.cond(tf.equal(model.net.data_id, 0),
losses_train, losses_test)` — the training branch when the phase selector
`data_id` is `0`, the test branch otherwise. -/
def PDE.losses (data_id : Nat) (loss : List Int → List Int → Int)
    (f_train f_test : List (List Int)) (bcs : List BC)
    (num_bcs : Option (List Nat)) (train_x inputs outputs : List Row) :
    Except String (List Int) :=
  if data_id = 0 then
    losses_trainE loss f_train bcs num_bcs train_x inputs outputs
  else
    Except.ok (losses_test loss f_test bcs)

/-! ### Arithmetic facts about `cumsum` -/

theorem cumsum_length (l : List Nat) : (cumsum l).length = l.length := by
  induction l with
  | nil => rfl
  | cons x xs ih => simp [cumsum, ih]

theorem cumsum_getElem? (l : List Nat) :
    ∀ i, i < l.length → (cumsum l)[i]? = some ((l.take (i + 1)).sum) := by
  induction l with
  | nil => intro i h; simp at h
  | cons x xs ih =>
    intro i h
    cases i with
    | zero => simp [cumsum]
    | succ i =>
      have hx : i < xs.length := by simpa using h
      simp [cumsum, ih i hx]

/-- Entry `i` of `np.cumsum([0] + num_bcs)` is the sum of the first `i`
segment sizes. -/
theorem cumsum_zero_getD (nb : List Nat) (i : Nat) (h : i ≤ nb.length) :
    (cumsum (0 :: nb)).getD i 0 = (nb.take i).sum := by
  have h2 : i < (0 :: nb).length := by simpa using Nat.lt_succ_of_le h
  rw [List.getD_eq_getElem?_getD, cumsum_getElem? _ i h2]
  simp

theorem cumsum_getLast? (l : List Nat) :
    ∀ x : Nat, (cumsum (x :: l)).getLast? = some (x + l.sum) := by
  induction l with
  | nil => intro x; simp [cumsum]
  | cons y l ih =>
    intro x
    show (x :: (cumsum (y :: l)).map (x + ·)).getLast? = some (x + (y :: l).sum)
    rw [List.getLast?_cons, List.getLast?_map, ih y]
    simp [Nat.add_assoc]

/-- The last entry of `np.cumsum([0] + num_bcs)` (accessed as
`bcs_start[-1]` in the source) is `sum(num_bcs)`. -/
theorem cumsum_zero_getLastD (nb : List Nat) :
    (cumsum (0 :: nb)).getLastD 0 = nb.sum := by
  rw [List.getLastD_eq_getLast?, cumsum_getLast?]
  simp

/-! ### Concrete collaborators used to evaluate the embedding -/

/-- A 1-dimensional test geometry whose samplers return distinguishable
sentinel rows. -/
def gC : Geom where
  dim := 1
  uniform_points := fun n _ => List.replicate n [10]
  random_points := fun n _ => List.replicate n [20]
  uniform_boundary_points := fun n => List.replicate n [30]
  random_boundary_points := fun n _ => List.replicate n [40]
  uniform_initial_points := fun n => List.replicate n [50]
  random_initial_points := fun n _ => List.replicate n [60]

/-- A boundary condition that selects the first candidate row and reports a
unit error on its slice. -/
def bcC : BC where
  collocation_points := fun X => X.take 1
  error := fun _ _ _ b e => List.replicate (e - b) 1

/-- A fixed categorical draw: every row gets category 0. -/
def idxC : Nat → Fin 3 := fun _ => 0

/-- A freshly constructed dataset state: one boundary condition, two domain
points, one boundary point, nothing cached yet. -/
def sFresh : PDEState where
  bcs := [bcC]
  num_domain := 2
  num_boundary := 1
  num_initial := 0
  train_distribution := "random"
  anchors := none
  soln := none
  num_test := none
  num_bcs := none
  train_x := none
  train_y := none
  test_x := none
  test_y := none

/-- A state whose train cache is already populated. -/
def sCached : PDEState :=
  { sFresh with
    num_bcs := some [1]
    train_x := some [[30, 1, 0, 0], [20, 1, 0, 0], [20, 1, 0, 0]]
    train_y := some [[3], [4], [5]] }

/-! ### Claims -/

/-- C1: the claim says that after `train_next_batch` the cached
`train_points` is the boundary-condition segments stacked ahead of the
candidate array.  In the source, `bc_points` never returns its assembled
array (missing `return X`), so its call evaluates to `None` and the stacking
`np.vstack((self.bc_points(), self.train_x))` raises `ValueError`: the
stacked array is never produced.  First conjunct: the returned value of
`bc_points` is `None` for every input; second conjunct: running
`train_next_batch` on a fresh state raises instead of caching the stacked
array. -/
theorem bc_points_missing_return_breaks_stacking :
    (∀ bcs tx idx, (PDE.bc_points bcs tx idx).2 = none) ∧
    PDE.train_next_batch gC idxC idxC sFresh
      = Except.error "ValueError: vstack input dimensions mismatch" :=
  ⟨fun _ _ _ => rfl, rfl⟩

/-- C7: the claim says `add_anchors` rebuilds `train_points` as a fresh
boundary-condition prefix stacked ahead of the merged anchors and the
reused previous suffix.  Because `bc_points` returns `None`, the final
`np.vstack((self.bc_points(), self.train_x))` in `add_anchors` raises
`ValueError` instead: evaluated on a populated state with one previous
boundary row and two domain rows, adding one anchor crashes. -/
theorem add_anchors_crashes_on_bc_points :
    PDE.add_anchors idxC [[9]] sCached
      = Except.error "ValueError: vstack input dimensions mismatch" := rfl

/-- C8: the claim says every sampling call appends a 3-column one-hot tag.
The stationary test sampler `PDE.test_points` returns
`geom.uniform_points(num_test, True)` with no tag columns (on the sentinel
geometry, two untagged 1-column rows), and the time-augmented
`TimePDE.test_points` raises `NameError` (it references the undefined name
`num_examples`) on every call before it can return tagged points. -/
theorem test_points_do_not_tag :
    PDE.test_points gC 2 = [[10], [10]] ∧
    (∀ g n idx, TimePDE.test_points g n idx
      = Except.error "NameError: name num examples is not defined") :=
  ⟨rfl, fun _ _ _ => rfl⟩

/-- C9: with the segment-size ledger still absent (`num_bcs` is `None`
because `train_next_batch` never ran), building the training-phase losses
raises (`np.cumsum([0] + None)` is a `TypeError`) rather than slicing the
point array with undefined bounds. -/
theorem losses_train_absent_ledger_raises
    (loss : List Int → List Int → Int) (f_train : List (List Int))
    (bcs : List BC) (tx inp out : List Row) :
    losses_trainE loss f_train bcs none tx inp out
      = Except.error "TypeError: cannot concatenate list and None" := rfl

/-- A concrete loss metric: sum of elementwise differences against the
target. -/
def lossC : List Int → List Int → Int :=
  fun zs e => ((e.zip zs).map fun p => p.1 - p.2).sum

/-- C10: for every `train_distribution` string other than exactly
`"uniform"` (not only `"random"`), the samplers take the quasi-random
Sobol path, with no validation of the string: the result coincides with the
`"random"` configuration for both the stationary and the time-augmented
variant, and with `num_boundary = 0` it is exactly the tagged
`geom.random_points(num_domain, random="sobol")` sample. -/
theorem nonuniform_distribution_uses_sobol
    (g : Geom) (nd nb ni : Nat) (dist : String) (anc : Option (List Row))
    (idx : Nat → Fin 3) (h : dist ≠ "uniform") :
    PDE.train_points g nd nb dist anc idx
      = PDE.train_points g nd nb "random" anc idx ∧
    TimePDE.train_points g nd nb ni dist anc idx
      = TimePDE.train_points g nd nb ni "random" anc idx ∧
    (0 < nd → PDE.train_points g nd 0 dist none idx
      = addTags idx (g.random_points nd "sobol")) := by
  refine ⟨?_, ?_, fun hnd => ?_⟩
  · simp [PDE.train_points, h]
  · simp [TimePDE.train_points, h]
  · simp [PDE.train_points, h, hnd]

/-- Witness for C10 at the sentinel geometry with the unrecognized
distribution string `"pseudo"`. -/
theorem nonuniform_distribution_uses_sobol_witness :
    PDE.train_points gC 1 1 "pseudo" none idxC
      = PDE.train_points gC 1 1 "random" none idxC ∧
    PDE.train_points gC 1 0 "pseudo" none idxC
      = addTags idxC (gC.random_points 1 "sobol") :=
  ⟨(nonuniform_distribution_uses_sobol gC 1 1 0 "pseudo" none idxC
      (by decide)).1,
   (nonuniform_distribution_uses_sobol gC 1 0 0 "pseudo" none idxC
      (by decide)).2.2 (by decide)⟩

/-- C3: with no explicit test count configured (`num_test` is `None`) and
the test cache still empty, `test` returns exactly the suffix of the cached
training data past the boundary-condition prefix: `test_x` is
`train_x[sum(num_bcs):]` and, when targets exist, `test_y` is
`train_y[sum(num_bcs):]`. -/
theorem test_reuses_train_suffix (g : Geom) (s : PDEState) (tx : List Row)
    (nb : List Nat) (h1 : s.test_x = none) (h2 : s.test_y = none)
    (h3 : s.num_test = none) (h4 : s.train_x = some tx)
    (h5 : s.num_bcs = some nb) :
    PDE.test g s = Except.ok
      ({ s with
          test_x := some (tx.drop nb.sum)
          test_y := s.train_y.map fun ty => ty.drop nb.sum },
       (some (tx.drop nb.sum), s.train_y.map fun ty => ty.drop nb.sum)) := by
  cases hy : s.train_y <;>
    simp [PDE.test, h1, h2, h3, h4, h5, hy]

/-- Witness for C3 at the populated state `sCached`: the boundary prefix
(one row) is dropped from both cached arrays. -/
theorem test_reuses_train_suffix_witness :
    PDE.test gC sCached = Except.ok
      ({ sCached with
          test_x := some [[20, 1, 0, 0], [20, 1, 0, 0]]
          test_y := some [[4], [5]] },
       (some [[20, 1, 0, 0], [20, 1, 0, 0]], some [[4], [5]])) := by
  have h := test_reuses_train_suffix gC sCached
    [[30, 1, 0, 0], [20, 1, 0, 0], [20, 1, 0, 0]] [1] rfl rfl rfl rfl rfl
  simpa using h

/-- C4: the memoize-once caching of `train_next_batch`: a call that
returns a cached pair leaves the state unchanged, so a second consecutive
call returns the identical pair; and whenever the cached `train_x` is
present the body is skipped and the cached pair is returned as is. -/
theorem train_next_batch_memoized :
    (∀ (g : Geom) (iT iB : Nat → Fin 3) (s s₁ : PDEState) r,
        PDE.train_next_batch g iT iB s = Except.ok (s₁, r) →
        PDE.train_next_batch g iT iB s₁ = Except.ok (s₁, r)) ∧
    (∀ (g : Geom) (iT iB : Nat → Fin 3) (s : PDEState),
        s.train_x.isSome →
        PDE.train_next_batch g iT iB s
          = Except.ok (s, (s.train_x, s.train_y))) := by
  have cached : ∀ (g : Geom) (iT iB : Nat → Fin 3) (s : PDEState),
      (s.train_x.isNone && s.train_y.isNone) = false →
      PDE.train_next_batch g iT iB s
        = Except.ok (s, (s.train_x, s.train_y)) := by
    intro g iT iB s hc
    simp [PDE.train_next_batch, hc]
  constructor
  · intro g iT iB s s₁ r h
    by_cases hc : (s.train_x.isNone && s.train_y.isNone) = true
    · exfalso
      simp [PDE.train_next_batch, hc, PDE.bc_points] at h
    · rw [Bool.not_eq_true] at hc
      rw [cached g iT iB s hc] at h
      simp only [Except.ok.injEq, Prod.mk.injEq] at h
      obtain ⟨hs, hr⟩ := h
      subst hs
      rw [cached g iT iB s hc, hr]
  · intro g iT iB s hs
    have hc : (s.train_x.isNone && s.train_y.isNone) = false := by
      cases hx : s.train_x with
      | none => rw [hx] at hs; simp at hs
      | some v => simp [hx]
    exact cached g iT iB s hc

/-- Witness for C4: at the populated state `sCached` the first call
returns the cached pair (second conjunct) and a repeated call returns the
identical result (first conjunct applied to the first call). -/
theorem train_next_batch_memoized_witness :
    PDE.train_next_batch gC idxC idxC sCached
      = Except.ok (sCached, (sCached.train_x, sCached.train_y)) :=
  train_next_batch_memoized.1 gC idxC idxC sCached sCached
    (sCached.train_x, sCached.train_y)
    (train_next_batch_memoized.2 gC idxC idxC sCached rfl)

/-- C2: in the training-phase loss list, the `j`-th entry (for the `j`-th
residual component) compares the component restricted to the rows at index
`sum(num_bcs)` and after against an all-zero target of matching shape, and
the `(len(f_train) + i)`-th entry (for the `i`-th boundary condition)
compares the condition's error over the slice bounded by the cumulative
sums `sum(num_bcs[:i])` and `sum(num_bcs[:i+1])` against zeros — residual
losses first, boundary-condition losses after, in condition order. -/
theorem losses_train_slices_by_ledger
    (loss : List Int → List Int → Int) (f_train : List (List Int))
    (bcs : List BC) (nb : List Nat) (tx inp out : List Row)
    (hlen : bcs.length = nb.length) :
    (∀ (j : Nat) (fj : List Int), f_train[j]? = some fj →
      (losses_train loss f_train bcs nb tx inp out)[j]?
        = some (loss (List.replicate (fj.drop nb.sum).length 0)
            (fj.drop nb.sum))) ∧
    (∀ (i : Nat) (bc : BC), bcs[i]? = some bc →
      (losses_train loss f_train bcs nb tx inp out)[f_train.length + i]?
        = some (loss
            (List.replicate
              (bc.error tx inp out ((nb.take i).sum)
                ((nb.take (i + 1)).sum)).length 0)
            (bc.error tx inp out ((nb.take i).sum)
              ((nb.take (i + 1)).sum)))) := by
  constructor
  · intro j fj hj
    obtain ⟨hjlen, -⟩ := List.getElem?_eq_some_iff.1 hj
    unfold losses_train
    rw [List.getElem?_append_left (by simpa using hjlen)]
    simp [List.getElem?_map, hj, cumsum_getLast?]
  · intro i bc hbc
    obtain ⟨hilen, -⟩ := List.getElem?_eq_some_iff.1 hbc
    have hinb : i < nb.length := hlen ▸ hilen
    unfold losses_train
    rw [List.getElem?_append_right (by simp)]
    simp only [List.length_map, Nat.add_sub_cancel_left, List.getElem?_map,
      List.enum_eq_enumFrom, List.getElem?_enumFrom, hbc, Option.map_some',
      Nat.zero_add]
    rw [cumsum_zero_getD nb i (Nat.le_of_lt hinb),
      cumsum_zero_getD nb (i + 1) hinb]

/-- Witness for C2: one residual component over three stacked rows with a
one-row boundary prefix, and one boundary condition with unit slice
error. -/
theorem losses_train_slices_by_ledger_witness :
    (losses_train lossC [[1, 2, 3]] [bcC] [1] [] [] [])[0]?
      = some (lossC [0, 0] [2, 3]) ∧
    (losses_train lossC [[1, 2, 3]] [bcC] [1] [] [] [])[1 + 0]?
      = some (lossC [0] [1]) := by
  have h := losses_train_slices_by_ledger lossC [[1, 2, 3]] [bcC] [1]
    [] [] [] rfl
  exact ⟨h.1 0 [1, 2, 3] rfl, h.2 0 bcC rfl⟩

/-- C5: at both phases the assembled loss list has one entry per residual
component plus one entry per boundary condition; with equally many residual
components, the training-phase and evaluation-phase lists have the same
length. -/
theorem losses_length_both_phases
    (loss : List Int → List Int → Int) (f_train f_test : List (List Int))
    (bcs : List BC) (nb : List Nat) (tx inp out : List Row) :
    (losses_train loss f_train bcs nb tx inp out).length
        = f_train.length + bcs.length ∧
    (losses_test loss f_test bcs).length = f_test.length + bcs.length ∧
    (f_train.length = f_test.length →
      (losses_train loss f_train bcs nb tx inp out).length
        = (losses_test loss f_test bcs).length) := by
  refine ⟨?_, ?_, fun h => ?_⟩
  · simp [losses_train]
  · simp [losses_test]
  · simp [losses_train, losses_test, h]

/-- Witness for C5 with one residual component and one boundary
condition on each phase. -/
theorem losses_length_both_phases_witness :
    (losses_train lossC [[1, 2]] [bcC] [1] [] [] []).length = 1 + 1 ∧
    (losses_test lossC [[7]] [bcC]).length = 1 + 1 ∧
    (losses_train lossC [[1, 2]] [bcC] [1] [] [] []).length
      = (losses_test lossC [[7]] [bcC]).length := by
  have h := losses_length_both_phases lossC [[1, 2]] [[7]] [bcC] [1] [] [] []
  exact ⟨h.1, h.2.1, h.2.2 rfl⟩

/-- C6: when the phase selector is not `0` (\"test\"), the assembler
returns the `losses_test` list, in which every boundary-condition entry is
the literal zero scalar — independent of the loss metric and of the network
outputs — while each residual entry compares the whole unsliced component
against a zero target of its full length. -/
theorem test_phase_bc_losses_zero
    (data_id : Nat) (loss : List Int → List Int → Int)
    (f_train f_test : List (List Int)) (bcs : List BC)
    (nbo : Option (List Nat)) (tx inp out : List Row)
    (h : data_id ≠ 0) :
    PDE.losses data_id loss f_train f_test bcs nbo tx inp out
      = Except.ok (losses_test loss f_test bcs) ∧
    (∀ i, i < bcs.length →
      (losses_test loss f_test bcs)[f_test.length + i]? = some 0) ∧
    (∀ (j : Nat) (fj : List Int), f_test[j]? = some fj →
      (losses_test loss f_test bcs)[j]?
        = some (loss (List.replicate fj.length 0) fj)) := by
  refine ⟨by simp [PDE.losses, h], fun i hi => ?_, fun j fj hj => ?_⟩
  · unfold losses_test
    rw [List.getElem?_append_right (by simp)]
    simp [Nat.add_sub_cancel_left, List.getElem?_map,
      List.getElem?_replicate, hi]
  · obtain ⟨hjlen, -⟩ := List.getElem?_eq_some_iff.1 hj
    unfold losses_test
    rw [List.getElem?_append_left (by simpa using hjlen)]
    simp [List.getElem?_map, hj]

/-- Witness for C6 at phase selector `1` with one residual component and
one boundary condition. -/
theorem test_phase_bc_losses_zero_witness :
    PDE.losses 1 lossC [[1]] [[2, 3]] [bcC] none [] [] []
      = Except.ok (losses_test lossC [[2, 3]] [bcC]) ∧
    (losses_test lossC [[2, 3]] [bcC])[1 + 0]? = some 0 ∧
    (losses_test lossC [[2, 3]] [bcC])[0]?
      = some (lossC [0, 0] [2, 3]) := by
  have h := test_phase_bc_losses_zero 1 lossC [[1]] [[2, 3]] [bcC]
    none [] [] [] (by decide)
  exact ⟨h.1, h.2.1 0 (by decide), h.2.2 0 [2, 3] rfl⟩
